import Mathlib

/-!
Verification development for the browser client in `docs/app.js` of the
monte-carlo-sim-for-vc repository.  The script gathers 25 numeric form
fields, POSTs them as JSON to a simulation API, and renders the returned
metrics and two histograms.  This file gives a shallow embedding of that
client: JavaScript numbers are modelled as exact rationals (`ℚ`), strings
as Lean `String`s, and the DOM side effects of the click handler as an
explicit event trace.  Arithmetic on rationals is done through
`mkRat`-based operations (`qMul`, `qAdd`) that the kernel can evaluate;
bridge lemmas identify them with the field operations of `ℚ`.
-/

/-! ## Basic character and string primitives (models of JS builtins) -/

/-- Whitespace as recognised by the modelled JS primitives (`trim`,
`parseFloat` skipping): the four ASCII whitespace characters. -/
def wsChar (c : Char) : Bool :=
  c = ' ' || c = '\t' || c = '\n' || c = '\r'

/-- Membership of `pat` as a contiguous run inside `l`; model of JS
`String.prototype.includes` on the character level. -/
def listContains (pat : List Char) : List Char → Bool
  | [] => pat.isEmpty
  | c :: rest => pat.isPrefixOf (c :: rest) || listContains pat rest

/-- Model of JS `s.includes(pat)`. -/
def strIncludes (s pat : String) : Bool :=
  listContains pat.data s.data

/-- Model of JS `s.startsWith(pat)`. -/
def startsWithStr (s pat : String) : Bool :=
  pat.data.isPrefixOf s.data

/-- Model of JS `s.padEnd(n)`: append spaces up to length `n`. -/
def padEnd (s : String) (n : ℕ) : String :=
  s ++ String.mk (List.replicate (n - s.data.length) ' ')

/-- Character of one decimal digit value (callers only pass values below
ten). -/
def digitCh (d : ℕ) : Char :=
  if d = 0 then '0' else if d = 1 then '1' else if d = 2 then '2' else if d = 3 then '3'
  else if d = 4 then '4' else if d = 5 then '5' else if d = 6 then '6' else if d = 7 then '7'
  else if d = 8 then '8' else '9'

/-- Decimal digits of a natural number, most significant first.  The fuel
argument makes the recursion structural; `natChars` supplies enough fuel. -/
def natCharsAux : ℕ → ℕ → List Char
  | 0, _ => []
  | fuel + 1, n =>
    if n < 10 then [digitCh n]
    else natCharsAux fuel (n / 10) ++ [digitCh (n % 10)]

/-- Decimal digit string of a natural number. -/
def natChars (n : ℕ) : List Char :=
  natCharsAux (n + 1) n

/-- Decimal digit string of an integer, with a leading minus sign when
negative. -/
def intChars (n : ℤ) : List Char :=
  if n < 0 then '-' :: natChars n.natAbs else natChars n.natAbs

/-- Insert a comma after every three characters of a reversed digit list,
except at the very end; helper for `intGrouped`. -/
def grp3 : List Char → List Char
  | a :: b :: c :: d :: rest => a :: b :: c :: ',' :: grp3 (d :: rest)
  | l => l

/-- Model of JS `Number.prototype.toLocaleString` on integers in the
en-US locale: decimal digits with thousands separators. -/
def intGrouped (n : ℤ) : String :=
  (if n < 0 then "-" else "") ++ String.mk ((grp3 (natChars n.natAbs).reverse).reverse)

/-! ## Exact rational arithmetic that the kernel evaluates -/

/-- Product of two rationals computed through `mkRat`; agrees with `ℚ`
multiplication (`qMul_eq`). -/
def qMul (a b : ℚ) : ℚ := mkRat (a.num * b.num) (a.den * b.den)

/-- Sum of two rationals computed through `mkRat`; agrees with `ℚ`
addition (`qAdd_eq`). -/
def qAdd (a b : ℚ) : ℚ := mkRat (a.num * b.den + b.num * a.den) (a.den * b.den)

/-- Model of JS `Math.round`: floor of `q + 1/2` (rounds half toward
positive infinity, as `Math.round` does). -/
def jsRound (q : ℚ) : ℤ := ⌊qAdd q (mkRat 1 2)⌋

/-- Two decimal digits with a leading zero, for the fraction part of
`toFixed2`. -/
def twoDigits (m : ℕ) : String :=
  if m < 10 then "0" ++ String.mk (natChars m) else String.mk (natChars m)

/-- Model of JS `x.toFixed(2)` on an exact rational: the sign is taken
first, then the magnitude is rounded to the nearest multiple of 1/100,
ties away from zero, exactly as ECMA-262 specifies for `toFixed`. -/
def toFixed2 (q : ℚ) : String :=
  let x : ℚ := if q < 0 then -q else q
  let nn : ℕ := (⌊qAdd (qMul x 100) (mkRat 1 2)⌋).toNat
  (if q < 0 then "-" else "") ++ String.mk (natChars (nn / 100)) ++ "." ++ twoDigits (nn % 100)

/-- Model of the JS expression `s || fallback` on an optional string field:
a missing field and the empty string are both falsy. -/
def jsOr (v : Option String) (fallback : String) : String :=
  match v with
  | none => fallback
  | some s => if s = "" then fallback else s

/-! ## JS numbers and the parsing of form control values -/

/-- A JavaScript number as produced by `parseFloat`/`parseInt`: either NaN
or a finite value, modelled exactly as a rational. -/
inductive JSNum where
  | nan : JSNum
  | num (q : ℚ) : JSNum
  deriving DecidableEq

/-- Longest prefix of decimal digits, returned as digit values together
with the rest of the input. -/
def takeDigits : List Char → List ℕ × List Char
  | [] => ([], [])
  | c :: rest =>
    if c.isDigit then
      let p := takeDigits rest
      ((c.toNat - 48) :: p.1, p.2)
    else ([], c :: rest)

/-- Value of a digit list read as a base-10 numeral. -/
def digitsToNat (ds : List ℕ) : ℕ :=
  ds.foldl (fun a d => 10 * a + d) 0

/-- Strip an optional sign, returning whether it was `-`. -/
def parseSign : List Char → Bool × List Char
  | '-' :: r => (true, r)
  | '+' :: r => (false, r)
  | l => (false, l)

/-- Model of the JS `parseFloat` builtin restricted to plain decimal
numerals (optional whitespace, optional sign, digits, optional fraction;
exponents, `Infinity` and hex forms are outside this model): the longest
numeric prefix is parsed, and `none` is returned when there is none. -/
def parseFloatCore (l : List Char) : Option ℚ :=
  let l1 := (l.dropWhile wsChar)
  let sp := parseSign l1
  let ip := takeDigits sp.2
  let fp :=
    match ip.2 with
    | '.' :: r => (takeDigits r).1
    | _ => []
  if ip.1.isEmpty && fp.isEmpty then none
  else
    let mag : ℚ := mkRat (digitsToNat (ip.1 ++ fp) : ℤ) (10 ^ fp.length)
    some (if sp.1 then -mag else mag)

/-- `parseFloat` on a string, NaN when nothing parses. -/
def parseFloatJS (s : String) : JSNum :=
  match parseFloatCore s.data with
  | none => JSNum.nan
  | some q => JSNum.num q

/-- Model of the JS `parseInt` builtin with radix 10 (the hex prefix form
is outside this model): optional whitespace and sign, then the longest
digit prefix, `none` when there is none. -/
def parseIntCore (l : List Char) : Option ℤ :=
  let l1 := (l.dropWhile wsChar)
  let sp := parseSign l1
  let ip := takeDigits sp.2
  if ip.1.isEmpty then none
  else
    let v : ℤ := (digitsToNat ip.1 : ℤ)
    some (if sp.1 then -v else v)

/-- `parseInt` on a string, NaN when nothing parses. -/
def parseIntJS (s : String) : JSNum :=
  match parseIntCore s.data with
  | none => JSNum.nan
  | some n => JSNum.num (mkRat n 1)

/-! ## JSON serialization of the request body -/

/-- The token `JSON.stringify` emits for one number: JSON has no NaN, so a
non-finite number is serialized as `null`; a finite number keeps its exact
value. -/
inductive NumToken where
  | nullTok : NumToken
  | numTok (q : ℚ) : NumToken
  deriving DecidableEq

/-- Number serialization step of `JSON.stringify`: NaN becomes `null`. -/
def serializeToken : JSNum → NumToken
  | JSNum.nan => NumToken.nullTok
  | JSNum.num q => NumToken.numTok q

/-- What a JSON reader on the server recovers from one serialized token:
`null` is not a number, so it yields no `JSNum` at all. -/
def decodeToken : NumToken → Option JSNum
  | NumToken.nullTok => none
  | NumToken.numTok q => some (JSNum.num q)

/-- A serialized token carries no fractional component: it is `null` or an
integer-valued number. -/
def withoutFractionalComponent : NumToken → Bool
  | NumToken.nullTok => true
  | NumToken.numTok q => q.den == 1

/-- Fraction digits of `r / d` by long division, with fuel; helper for
rendering non-integral number tokens. -/
def fracDigitsAux : ℕ → ℕ → ℕ → List Char
  | 0, _, _ => []
  | _ + 1, 0, _ => []
  | fuel + 1, r, d => digitCh (r * 10 / d) :: fracDigitsAux fuel (r * 10 % d) d

/-- Decimal rendering of a non-integral rational (sign, integer part, dot,
fraction digits); model of JS number-to-string on finite decimals. -/
def decChars (q : ℚ) : List Char :=
  (if q.num < 0 then ['-'] else []) ++
    natChars (q.num.natAbs / q.den) ++
    '.' :: fracDigitsAux 30 (q.num.natAbs % q.den) q.den

/-- Text of one serialized number token. -/
def renderToken : NumToken → String
  | NumToken.nullTok => "null"
  | NumToken.numTok q =>
    if q.den = 1 then String.mk (intChars q.num) else String.mk (decChars q)

/-- A string in double quotes; the request keys contain no character that
`JSON.stringify` would escape. -/
def quoteStr (s : String) : String := "\"" ++ s ++ "\""

/-- One `"key":value` member of the serialized request object. -/
def fieldStr (kv : String × JSNum) : String :=
  quoteStr kv.1 ++ ":" ++ renderToken (serializeToken kv.2)

/-- Comma-separated concatenation, as `JSON.stringify` joins members. -/
def joinComma : List String → String
  | [] => ""
  | [x] => x
  | x :: y :: rest => x ++ "," ++ joinComma (y :: rest)

/-- The full serialized JSON object for an association list of number
fields, in insertion order. -/
def stringifyBody (fields : List (String × JSNum)) : String :=
  "\x7b" ++ joinComma (fields.map fieldStr) ++ "\x7d"

/-! ## The form and the request it produces -/

/-- Current text of the 25 bound input controls, one field per
`getElementById` call in the submit handler. -/
structure Form where
  failure_rate : String
  zombie_rate : String
  rec_min : String
  rec_mode : String
  rec_max : String
  investment : String
  val_min : String
  val_mode : String
  val_max : String
  tam_min : String
  tam_max : String
  ms_min : String
  ms_max : String
  mult_q1 : String
  mult_median : String
  mult_q3 : String
  time_min : String
  time_mode : String
  time_max : String
  rounds_min : String
  rounds_max : String
  dil_min : String
  dil_mode : String
  dil_max : String
  num_sims : String
  deriving DecidableEq

/-- The `inputData` object literal of the submit handler: every field of
the request in insertion order, each parsed with `parseFloat` except the
three `parseInt` fields `rounds_min`, `rounds_max`, `num_simulations`. -/
def inputData (f : Form) : List (String × JSNum) :=
  [("failure_rate_pct", parseFloatJS f.failure_rate),
   ("zombie_rate_pct", parseFloatJS f.zombie_rate),
   ("rec_min", parseFloatJS f.rec_min),
   ("rec_mode", parseFloatJS f.rec_mode),
   ("rec_max", parseFloatJS f.rec_max),
   ("initial_investment", parseFloatJS f.investment),
   ("val_min", parseFloatJS f.val_min),
   ("val_mode", parseFloatJS f.val_mode),
   ("val_max", parseFloatJS f.val_max),
   ("tam_min_p10", parseFloatJS f.tam_min),
   ("tam_max_p90", parseFloatJS f.tam_max),
   ("ms_min_p10_pct", parseFloatJS f.ms_min),
   ("ms_max_p90_pct", parseFloatJS f.ms_max),
   ("q1_mult", parseFloatJS f.mult_q1),
   ("median_mult", parseFloatJS f.mult_median),
   ("q3_mult", parseFloatJS f.mult_q3),
   ("time_min", parseFloatJS f.time_min),
   ("time_mode", parseFloatJS f.time_mode),
   ("time_max", parseFloatJS f.time_max),
   ("rounds_min", parseIntJS f.rounds_min),
   ("rounds_max", parseIntJS f.rounds_max),
   ("dil_min", parseFloatJS f.dil_min),
   ("dil_mode", parseFloatJS f.dil_mode),
   ("dil_max", parseFloatJS f.dil_max),
   ("num_simulations", parseIntJS f.num_sims)]

/-- The key sequence of the serialized request object, as enumerated in
the SimulationRequest data model. -/
def simulationRequestKeys : List String :=
  ["failure_rate_pct", "zombie_rate_pct", "rec_min", "rec_mode", "rec_max",
   "initial_investment", "val_min", "val_mode", "val_max",
   "tam_min_p10", "tam_max_p90", "ms_min_p10_pct", "ms_max_p90_pct",
   "q1_mult", "median_mult", "q3_mult",
   "time_min", "time_mode", "time_max",
   "rounds_min", "rounds_max", "dil_min", "dil_mode", "dil_max",
   "num_simulations"]

/-- The body string handed to `fetch` on every click. -/
def requestBody (f : Form) : String :=
  stringifyBody (inputData f)

/-- A fully numeric form, used to instantiate the universally quantified
theorems at a concrete input. -/
def sampleForm : Form :=
  ⟨"10", "20", "0.1", "0.2", "0.5", "1000000", "5", "10", "20", "1", "50",
   "0.5", "5", "2", "5", "12", "3", "6", "10", "1", "4", "0.1", "0.2",
   "0.3", "10000"⟩

/-- The sample form with a non-numeric failure-rate control. -/
def nanForm : Form :=
  { sampleForm with failure_rate := "abc" }

/-! ## Rendering of the metrics mapping -/

/-- One value of the `metrics` object in the response: a string (empty
string marks a section header) or a number. -/
inductive MetricValue where
  | str (s : String) : MetricValue
  | num (q : ℚ) : MetricValue
  deriving DecidableEq

/-- One iteration of the metrics rendering loop: the text appended for the
entry `(key, value)`, following the if/else chain of the handler. -/
def formatEntry (key : String) (v : MetricValue) : String :=
  match v with
  | MetricValue.str s =>
    if s = "" then "\n" ++ key ++ "\n"
    else padEnd key 32 ++ ": " ++ s ++ "\n"
  | MetricValue.num q =>
    if strIncludes key "IRR" || strIncludes key "P(" then
      padEnd key 32 ++ ": " ++ toFixed2 (qMul q 100) ++ "%\n"
    else if strIncludes key "MOIC" then
      padEnd key 32 ++ ": " ++ toFixed2 q ++ "x\n"
    else if strIncludes key "Val" || strIncludes key "Proceeds" then
      padEnd key 32 ++ ": $" ++ intGrouped (jsRound q) ++ "\n"
    else
      padEnd key 32 ++ ": " ++ toFixed2 q ++ "\n"

/-- The concatenated metrics text before trimming, entries in insertion
order. -/
def renderEntries : List (String × MetricValue) → String
  | [] => ""
  | kv :: rest => formatEntry kv.1 kv.2 ++ renderEntries rest

/-- Drop leading whitespace characters. -/
def trimLeftChars (l : List Char) : List Char :=
  l.dropWhile wsChar

/-- Drop trailing whitespace characters. -/
def trimRightChars (l : List Char) : List Char :=
  (trimLeftChars l.reverse).reverse

/-- Model of JS `String.prototype.trim` on the character list. -/
def trimChars (l : List Char) : List Char :=
  trimRightChars (trimLeftChars l)

/-- Model of JS `s.trim()`. -/
def jsTrim (s : String) : String :=
  String.mk (trimChars s.data)

/-- The final text assigned to the metrics output node:
`metricsText.trim()`. -/
def renderMetricsText (entries : List (String × MetricValue)) : String :=
  jsTrim (renderEntries entries)

/-- Split a character list at every newline; the segments are the lines of
the text.  `splitNL l` is never empty and concatenating its segments with
newlines between them restores `l`. -/
def splitNL : List Char → List (List Char)
  | [] => [[]]
  | c :: rest =>
    if c = '\n' then [] :: splitNL rest
    else
      match splitNL rest with
      | [] => [[c]]
      | t :: ts => (c :: t) :: ts

/-- Append a character to the last segment of a non-empty segment list;
helper for reasoning about `splitNL` of a reversed list. -/
def appLast : List (List Char) → Char → List (List Char)
  | [], c => [[c]]
  | [t], c => [t ++ [c]]
  | t :: u :: ts, c => t :: appLast (u :: ts) c

/-! ## The response, the chart traces and the click handler trace -/

/-- The parsed body of a success response. -/
structure SimulationResult where
  metrics : List (String × MetricValue)
  plot_data_irr : List ℚ
  plot_data_moic : List ℚ
  deriving DecidableEq

/-- A histogram trace specification handed to the charting library. -/
structure HistTrace where
  x : List ℚ
  nbinsx : Option ℕ
  name : String
  color : String
  deriving DecidableEq

/-- The IRR histogram trace: all IRR samples, 100 bins. -/
def irrTrace (data : List ℚ) : HistTrace :=
  { x := data, nbinsx := some 100, name := "IRR", color := "#007bff" }

/-- The MOIC histogram trace: samples filtered to those strictly greater
than 0.01 (for the log axis), order preserved, no bin count. -/
def moicTrace (data : List ℚ) : HistTrace :=
  { x := data.filter (fun m => decide (mkRat 1 100 < m)),
    nbinsx := none, name := "MOIC", color := "#28a745" }

/-- One DOM side effect of the click handler. -/
inductive UIEvent where
  | showLoading : UIEvent
  | hideLoading : UIEvent
  | hideError : UIEvent
  | showError (msg : String) : UIEvent
  | clearMetrics : UIEvent
  | purgeIrr : UIEvent
  | purgeMoic : UIEvent
  | setMetricsText (s : String) : UIEvent
  | plotIrr (t : HistTrace) : UIEvent
  | plotMoic (t : HistTrace) : UIEvent
  deriving DecidableEq

/-- The visible state of the page regions the handler touches. -/
structure UIState where
  loadingVisible : Bool
  errorVisible : Bool
  errorText : String
  metricsText : String
  irrPlot : Option HistTrace
  moicPlot : Option HistTrace
  deriving DecidableEq

/-- Effect of one DOM event on the page state. -/
def applyEvent (st : UIState) : UIEvent → UIState
  | UIEvent.showLoading => { st with loadingVisible := true }
  | UIEvent.hideLoading => { st with loadingVisible := false }
  | UIEvent.hideError => { st with errorVisible := false }
  | UIEvent.showError m => { st with errorText := m, errorVisible := true }
  | UIEvent.clearMetrics => { st with metricsText := "" }
  | UIEvent.purgeIrr => { st with irrPlot := none }
  | UIEvent.purgeMoic => { st with moicPlot := none }
  | UIEvent.setMetricsText s => { st with metricsText := s }
  | UIEvent.plotIrr t => { st with irrPlot := some t }
  | UIEvent.plotMoic t => { st with moicPlot := some t }

/-- How one submission resolves: the network call throws, the body is not
JSON, the server answers with a non-success status (optionally carrying an
`error` field), or a parsed result arrives on a success status. -/
inductive Outcome where
  | transportError (msg : String) : Outcome
  | parseError (msg : String) : Outcome
  | httpError (errField : Option String) : Outcome
  | ok (r : SimulationResult) : Outcome
  deriving DecidableEq

/-- The events before the `try` block: show the loading indicator, hide
the error region, clear the metrics text, purge both plots. -/
def setupEvents : List UIEvent :=
  [UIEvent.showLoading, UIEvent.hideError, UIEvent.clearMetrics,
   UIEvent.purgeIrr, UIEvent.purgeMoic]

/-- The events of the `try`/`catch` part: a thrown error (transport, JSON
parsing, or the re-thrown non-success status with its `results.error ||`
fallback message) reaches the catch block and is displayed as
`Error: <message>`; a success renders the metrics text and both traces. -/
def tryCatchEvents : Outcome → List UIEvent
  | Outcome.transportError m => [UIEvent.showError ("Error: " ++ m)]
  | Outcome.parseError m => [UIEvent.showError ("Error: " ++ m)]
  | Outcome.httpError errField =>
    [UIEvent.showError ("Error: " ++ jsOr errField "An unknown error occurred")]
  | Outcome.ok r =>
    [UIEvent.setMetricsText (renderMetricsText r.metrics),
     UIEvent.plotIrr (irrTrace r.plot_data_irr),
     UIEvent.plotMoic (moicTrace r.plot_data_moic)]

/-- The complete event trace of one execution of the click handler: setup,
then the try/catch events of the outcome, then the `finally` block, which
unconditionally hides the loading indicator. -/
def clickHandler (o : Outcome) : List UIEvent :=
  (setupEvents ++ tryCatchEvents o) ++ [UIEvent.hideLoading]

/-- Page state after the handler settles, starting from `st`. -/
def runHandler (st : UIState) (o : Outcome) : UIState :=
  (clickHandler o).foldl applyEvent st

/-- The page before any interaction: everything hidden and empty. -/
def initialUI : UIState :=
  ⟨false, false, "", "", none, none⟩

/-- Recogniser for the hide-loading event, used to count it in a trace. -/
def isHideLoading : UIEvent → Bool
  | UIEvent.hideLoading => true
  | _ => false

/-! ## Supporting lemmas: arithmetic bridges -/

/-- `qMul` agrees with multiplication on `ℚ`. -/
theorem qMul_eq (a b : ℚ) : qMul a b = a * b := by
  rw [Rat.mul_def, Rat.normalize_eq_mkRat]; rfl

/-- `qAdd` agrees with addition on `ℚ`. -/
theorem qAdd_eq (a b : ℚ) : qAdd a b = a + b := (Rat.add_def' a b).symm

/-- `jsRound` is the floor of `q + 1/2`, the usual description of
`Math.round`. -/
theorem jsRound_eq (q : ℚ) : jsRound q = ⌊q + (1 : ℚ) / 2⌋ := by
  unfold jsRound
  rw [qAdd_eq, Rat.mkRat_eq_div]
  norm_num

/-- A string that starts with `p` also contains `p`. -/
theorem startsWith_imp_includes (s p : String) (h : startsWithStr s p = true) :
    strIncludes s p = true := by
  unfold startsWithStr at h
  unfold strIncludes
  cases hd : s.data with
  | nil =>
    rw [hd] at h
    cases hp : p.data with
    | nil => simp [listContains, hp]
    | cons c r => rw [hp] at h; simp [List.isPrefixOf] at h
  | cons c r =>
    rw [hd] at h
    simp [listContains, h]

/-! ## Supporting lemmas: integer serialization is dot-free -/

theorem mkRat_one_den (n : ℤ) : (mkRat n 1).den = 1 := by
  rw [Rat.mkRat_one]; exact Rat.den_intCast n

theorem mkRat_one_num (n : ℤ) : (mkRat n 1).num = n := by
  rw [Rat.mkRat_one]; exact Rat.num_intCast n

/-- No character of `l` is a decimal point. -/
def dotFree (l : List Char) : Bool := l.all (fun c => !(c == '.'))

theorem digitCh_ne_dot (d : ℕ) : (!(digitCh d == '.')) = true := by
  unfold digitCh
  split_ifs <;> rfl

theorem dotFree_natCharsAux (fuel n : ℕ) : dotFree (natCharsAux fuel n) = true := by
  induction fuel generalizing n with
  | zero => rfl
  | succ fuel ih =>
    unfold natCharsAux dotFree
    split
    · simp [digitCh_ne_dot]
    · rw [List.all_append]
      have h1 := ih (n / 10)
      unfold dotFree at h1
      simp [h1, digitCh_ne_dot]

theorem dotFree_intChars (n : ℤ) : dotFree (intChars n) = true := by
  unfold intChars
  split
  · unfold dotFree
    rw [List.all_cons]
    have := dotFree_natCharsAux (n.natAbs + 1) n.natAbs
    unfold dotFree natChars at *
    simp_all
  · exact dotFree_natCharsAux _ _

/-- `parseInt` yields NaN or an integral rational. -/
theorem parseIntJS_cases (s : String) :
    parseIntJS s = JSNum.nan ∨ ∃ n : ℤ, parseIntJS s = JSNum.num (mkRat n 1) := by
  unfold parseIntJS
  cases h : parseIntCore s.data with
  | none => exact Or.inl rfl
  | some n => exact Or.inr ⟨n, rfl⟩

/-- The serialized token of a `parseInt` result never has a fractional
component. -/
theorem noFrac_parseInt (s : String) :
    withoutFractionalComponent (serializeToken (parseIntJS s)) = true := by
  rcases parseIntJS_cases s with h | ⟨n, h⟩ <;> rw [h]
  · rfl
  · simp [serializeToken, withoutFractionalComponent, mkRat_one_den]

/-- The rendered token of a `parseInt` result contains no decimal point. -/
theorem dotFree_renderToken_parseInt (s : String) :
    dotFree (renderToken (serializeToken (parseIntJS s))).data = true := by
  rcases parseIntJS_cases s with h | ⟨n, h⟩ <;> rw [h]
  · rfl
  · simp only [serializeToken, renderToken, mkRat_one_den, if_pos, mkRat_one_num]
    exact dotFree_intChars n

/-! ## Supporting lemmas: lines of the rendered metrics text -/

theorem splitNL_nil : splitNL [] = [[]] := rfl

theorem splitNL_cons_nl (x : List Char) : splitNL ('\n' :: x) = [] :: splitNL x := rfl

theorem splitNL_ne_nil (l : List Char) : splitNL l ≠ [] := by
  cases l with
  | nil => simp [splitNL]
  | cons c rest =>
    unfold splitNL
    split
    · simp
    · split <;> simp

theorem splitNL_cons_ne (c : Char) (l : List Char) (hc : ¬ c = '\n') :
    ∃ t ts, splitNL l = t :: ts ∧ splitNL (c :: l) = (c :: t) :: ts := by
  cases h : splitNL l with
  | nil => exact absurd h (splitNL_ne_nil l)
  | cons t ts =>
    refine ⟨t, ts, rfl, ?_⟩
    unfold splitNL
    rw [if_neg hc, h]

theorem splitNL_append_nl (a b : List Char) :
    splitNL (a ++ '\n' :: b) = splitNL a ++ splitNL b := by
  induction a with
  | nil => simp [splitNL_cons_nl, splitNL_nil]
  | cons c a ih =>
    by_cases hc : c = '\n'
    · subst hc
      rw [List.cons_append, splitNL_cons_nl, splitNL_cons_nl, ih, List.cons_append]
    · obtain ⟨t, ts, h1, h2⟩ := splitNL_cons_ne c (a ++ '\n' :: b) hc
      obtain ⟨t', ts', h3, h4⟩ := splitNL_cons_ne c a hc
      rw [List.cons_append, h2, h4]
      rw [ih, h3] at h1
      injection h1 with e1 e2
      subst e1; subst e2
      rfl

theorem splitNL_no_nl (l : List Char) (h : ¬ '\n' ∈ l) : splitNL l = [l] := by
  induction l with
  | nil => rfl
  | cons c rest ih =>
    have hc : ¬ c = '\n' := fun e => h (e ▸ List.mem_cons_self c rest)
    have hr : ¬ '\n' ∈ rest := fun m => h (List.mem_cons_of_mem c m)
    obtain ⟨t, ts, h1, h2⟩ := splitNL_cons_ne c rest hc
    rw [ih hr] at h1
    injection h1 with e1 e2
    subst e1; subst e2
    exact h2

theorem appLast_concat (m : List (List Char)) (x : List Char) (c : Char) :
    appLast (m ++ [x]) c = m ++ [x ++ [c]] := by
  induction m with
  | nil => rfl
  | cons y m ih =>
    cases m with
    | nil => rfl
    | cons z m' => simpa [appLast] using ih

theorem splitNL_concat_ne (xs : List Char) (c : Char) (hc : ¬ c = '\n') :
    splitNL (xs ++ [c]) = appLast (splitNL xs) c := by
  induction xs with
  | nil =>
    obtain ⟨t, ts, h1, h2⟩ := splitNL_cons_ne c [] hc
    rw [splitNL_nil] at h1
    injection h1 with e1 e2; subst e1; subst e2
    simpa [appLast] using h2
  | cons d xs ih =>
    by_cases hd : d = '\n'
    · subst hd
      rw [List.cons_append, splitNL_cons_nl, splitNL_cons_nl, ih]
      cases h : splitNL xs with
      | nil => exact absurd h (splitNL_ne_nil xs)
      | cons t ts => rfl
    · obtain ⟨t, ts, h1, h2⟩ := splitNL_cons_ne d (xs ++ [c]) hd
      obtain ⟨t', ts', h3, h4⟩ := splitNL_cons_ne d xs hd
      rw [List.cons_append, h2, h4]
      rw [ih, h3] at h1
      cases ts' with
      | nil =>
        simp only [appLast] at h1
        injection h1 with e1 e2; subst e1; subst e2
        rfl
      | cons u ts'' =>
        simp only [appLast] at h1
        injection h1 with e1 e2; subst e1; subst e2
        rfl

theorem splitNL_reverse (l : List Char) :
    splitNL l.reverse = ((splitNL l).map List.reverse).reverse := by
  induction l with
  | nil => rfl
  | cons c l ih =>
    by_cases hc : c = '\n'
    · subst hc
      rw [List.reverse_cons, splitNL_append_nl, ih, splitNL_cons_nl]
      simp [splitNL_nil]
    · rw [List.reverse_cons, splitNL_concat_ne _ _ hc, ih]
      obtain ⟨t, ts, h1, h2⟩ := splitNL_cons_ne c l hc
      rw [h1, h2]
      simp only [List.map_cons, List.reverse_cons, appLast_concat]

/-- Whitespace test on an optional character; `none` is not whitespace. -/
def wsOpt : Option Char → Bool
  | none => false
  | some c => wsChar c

theorem mem_splitNL_dropWhile (k l : List Char) (hk : k ≠ [])
    (hhd : wsOpt k.head? = false) (h : k ∈ splitNL l) :
    k ∈ splitNL (l.dropWhile wsChar) := by
  induction l with
  | nil =>
    rw [splitNL_nil] at h
    simp at h
    exact absurd h hk
  | cons c rest ih =>
    by_cases hw : wsChar c = true
    · rw [List.dropWhile_cons_of_pos hw]
      apply ih
      by_cases hc : c = '\n'
      · subst hc
        rw [splitNL_cons_nl] at h
        rcases List.mem_cons.1 h with e | m
        · exact absurd e hk
        · exact m
      · obtain ⟨t, ts, h1, h2⟩ := splitNL_cons_ne c rest hc
        rw [h2] at h
        rcases List.mem_cons.1 h with e | m
        · subst e
          simp [wsOpt, hw] at hhd
        · rw [h1]
          exact List.mem_cons_of_mem t m
    · rw [List.dropWhile_cons_of_neg hw]
      exact h

theorem mem_splitNL_of_mem_reverse (k l : List Char)
    (h : k ∈ splitNL l) : k.reverse ∈ splitNL l.reverse := by
  rw [splitNL_reverse]
  exact List.mem_reverse.2 (List.mem_map_of_mem List.reverse h)

/-- A nonempty line that neither starts nor ends in whitespace survives
trimming of the surrounding text. -/
theorem mem_splitNL_trimChars (k l : List Char) (hk : k ≠ [])
    (hhd : wsOpt k.head? = false) (hlast : wsOpt k.getLast? = false)
    (h : k ∈ splitNL l) : k ∈ splitNL (trimChars l) := by
  unfold trimChars trimRightChars trimLeftChars
  have step1 : k ∈ splitNL (l.dropWhile wsChar) :=
    mem_splitNL_dropWhile k l hk hhd h
  have step2 : k.reverse ∈ splitNL (l.dropWhile wsChar).reverse :=
    mem_splitNL_of_mem_reverse _ _ step1
  have hk' : k.reverse ≠ [] := by simpa using hk
  have hhd' : wsOpt k.reverse.head? = false := by
    rw [List.head?_reverse]; exact hlast
  have step3 : k.reverse ∈ splitNL ((l.dropWhile wsChar).reverse.dropWhile wsChar) :=
    mem_splitNL_dropWhile _ _ hk' hhd' step2
  have step4 := mem_splitNL_of_mem_reverse _ _ step3
  rwa [List.reverse_reverse] at step4

/-- Every branch of the metrics loop appends text that ends in a
newline. -/
theorem formatEntry_concat (k : String) (v : MetricValue) :
    ∃ s : String, formatEntry k v = s ++ "\n" := by
  cases v with
  | str s =>
    by_cases h : s = ""
    · exact ⟨"\n" ++ k, by simp [formatEntry, h]⟩
    · exact ⟨padEnd k 32 ++ ": " ++ s, by simp [formatEntry, h]⟩
  | num q =>
    by_cases h1 : (strIncludes k "IRR" || strIncludes k "P(") = true
    · refine ⟨padEnd k 32 ++ ": " ++ toFixed2 (qMul q 100) ++ "%", ?_⟩
      simp [formatEntry, h1, String.append_assoc]
    · by_cases h2 : strIncludes k "MOIC" = true
      · refine ⟨padEnd k 32 ++ ": " ++ toFixed2 q ++ "x", ?_⟩
        simp [formatEntry, h1, h2, String.append_assoc]
      · by_cases h3 : (strIncludes k "Val" || strIncludes k "Proceeds") = true
        · refine ⟨padEnd k 32 ++ ": $" ++ intGrouped (jsRound q), ?_⟩
          simp [formatEntry, h1, h2, h3]
        · refine ⟨padEnd k 32 ++ ": " ++ toFixed2 q, ?_⟩
          simp [formatEntry, h1, h2, h3]

theorem formatEntry_ends (k : String) (v : MetricValue) :
    ∃ t, (formatEntry k v).data = t ++ ['\n'] := by
  obtain ⟨s, hs⟩ := formatEntry_concat k v
  exact ⟨s.data, by rw [hs, String.data_append]⟩

/-- The key of an empty-string entry is a whole line of the untrimmed
metrics text. -/
theorem key_line_renderEntries (es : List (String × MetricValue)) (k : String)
    (hmem : (k, MetricValue.str "") ∈ es) (hnl : ¬ '\n' ∈ k.data) :
    k.data ∈ splitNL (renderEntries es).data := by
  induction es with
  | nil => cases hmem
  | cons kv rest ih =>
    rcases List.mem_cons.1 hmem with e | m
    · subst e
      show k.data ∈ splitNL (formatEntry k (MetricValue.str "") ++ renderEntries rest).data
      have e1 : formatEntry k (MetricValue.str "") = "\n" ++ k ++ "\n" := rfl
      rw [e1]
      have e2 : (("\n" ++ k ++ "\n") ++ renderEntries rest).data
          = '\n' :: (k.data ++ '\n' :: (renderEntries rest).data) := by
        simp [String.data_append]
      rw [e2, splitNL_cons_nl, splitNL_append_nl, splitNL_no_nl k.data hnl]
      exact List.mem_cons_of_mem _ (List.mem_append_left _ (List.mem_cons_self _ _))
    · show k.data ∈ splitNL (formatEntry kv.1 kv.2 ++ renderEntries rest).data
      obtain ⟨t, ht⟩ := formatEntry_ends kv.1 kv.2
      have e2 : (formatEntry kv.1 kv.2 ++ renderEntries rest).data
          = t ++ '\n' :: (renderEntries rest).data := by
        rw [String.data_append, ht]
        simp
      rw [e2, splitNL_append_nl]
      exact List.mem_append_right _ (ih m)

/-! ## Supporting lemmas: one member of the serialized body -/

theorem isInfix_joinComma {α : Type} (f : α → String) (l : List α) (x : α)
    (hx : x ∈ l) : List.IsInfix (f x).data (joinComma (l.map f)).data := by
  induction l with
  | nil => cases hx
  | cons y rest ih =>
    rcases List.mem_cons.1 hx with e | m
    · subst e
      cases rest with
      | nil => exact ⟨[], [], by simp [joinComma]⟩
      | cons z rest' =>
        refine ⟨[], ("," ++ joinComma ((z :: rest').map f)).data, ?_⟩
        simp [joinComma, String.data_append]
    · cases rest with
      | nil => cases m
      | cons z rest' =>
        obtain ⟨pre, suf, hps⟩ := ih m
        refine ⟨(f y ++ ",").data ++ pre, suf, ?_⟩
        rw [List.map_cons] at hps
        rw [List.map_cons, List.map_cons, joinComma]
        simp only [String.data_append, List.append_assoc]
        rw [← hps]
        simp

/-- Every field of the association list appears verbatim inside the
serialized request object. -/
theorem isInfix_stringifyBody (fields : List (String × JSNum)) (kv : String × JSNum)
    (hkv : kv ∈ fields) :
    List.IsInfix (fieldStr kv).data (stringifyBody fields).data := by
  obtain ⟨pre, suf, hps⟩ := isInfix_joinComma fieldStr fields kv hkv
  refine ⟨"\x7b".data ++ pre, suf ++ "\x7d".data, ?_⟩
  unfold stringifyBody
  simp only [String.data_append]
  rw [← hps]
  simp

/-! ## The claims -/

set_option maxRecDepth 20000

/-- Claim C1, corrected: on every submit the serialized request body
contains exactly the SimulationRequest keys of the data model, in
insertion order, no more and no fewer — these keys number 25, not 24 as
the claim counts them — and the three `parseInt` fields `rounds_min`,
`rounds_max` and `num_simulations` are serialized without a fractional
component (their tokens are `null` or an integer numeral containing no
decimal point). -/
theorem c1_request_body_keys (f : Form) :
    (inputData f).map Prod.fst = simulationRequestKeys ∧
    simulationRequestKeys.length = 25 ∧
    ("rounds_min", parseIntJS f.rounds_min) ∈ inputData f ∧
    ("rounds_max", parseIntJS f.rounds_max) ∈ inputData f ∧
    ("num_simulations", parseIntJS f.num_sims) ∈ inputData f ∧
    withoutFractionalComponent (serializeToken (parseIntJS f.rounds_min)) = true ∧
    withoutFractionalComponent (serializeToken (parseIntJS f.rounds_max)) = true ∧
    withoutFractionalComponent (serializeToken (parseIntJS f.num_sims)) = true ∧
    dotFree (renderToken (serializeToken (parseIntJS f.rounds_min))).data = true ∧
    dotFree (renderToken (serializeToken (parseIntJS f.rounds_max))).data = true ∧
    dotFree (renderToken (serializeToken (parseIntJS f.num_sims))).data = true := by
  refine ⟨rfl, rfl, ?_, ?_, ?_, noFrac_parseInt _, noFrac_parseInt _,
    noFrac_parseInt _, dotFree_renderToken_parseInt _,
    dotFree_renderToken_parseInt _, dotFree_renderToken_parseInt _⟩ <;>
    simp [inputData]

/-- Claim C1, counterexample to the stated count: the request body built
from any form (here the sample form) carries 25 keys, not 24. -/
theorem c1_key_count_counterexample :
    ((inputData sampleForm).map Prod.fst).length = 25 ∧
    ¬ ((inputData sampleForm).map Prod.fst).length = 24 := by
  refine ⟨by decide, by decide⟩

/-- Claim C1 witness: the amended theorem instantiated at the sample
form. -/
theorem c1_request_body_keys_witness :
    (inputData sampleForm).map Prod.fst = simulationRequestKeys ∧
    withoutFractionalComponent (serializeToken (parseIntJS sampleForm.rounds_min)) = true :=
  ⟨(c1_request_body_keys sampleForm).1,
   (c1_request_body_keys sampleForm).2.2.2.2.2.1⟩

/-- Claim C2, counterexample to the stated forwarding: with a non-numeric
failure-rate control the parse result is NaN, yet what the serialized body
carries for that key is the JSON token `null` — decoding the serialized
token does not recover a not-a-number value, the body text contains
`"failure_rate_pct":null`, and the text `NaN` appears nowhere in it. -/
theorem c2_nan_forwarded_counterexample :
    parseFloatJS nanForm.failure_rate = JSNum.nan ∧
    ("failure_rate_pct", JSNum.nan) ∈ inputData nanForm ∧
    ¬ decodeToken (serializeToken (parseFloatJS nanForm.failure_rate)) = some JSNum.nan ∧
    listContains (quoteStr "failure_rate_pct" ++ ":null").data (requestBody nanForm).data = true ∧
    listContains "NaN".data (requestBody nanForm).data = false := by
  refine ⟨by decide, by decide, by decide, by decide, by decide⟩

/-- Claim C2, corrected: a field whose control value does not parse as a
number is not rejected client-side — its key is still present in the
serialized request body — but the not-a-number value itself is not
forwarded as-is: `JSON.stringify` serializes it as JSON `null`, and
`"key":null` appears verbatim in the body text. -/
theorem c2_nan_serialized_null (f : Form) (name : String) (v : JSNum)
    (hmem : (name, v) ∈ inputData f) (hnan : v = JSNum.nan) :
    name ∈ (inputData f).map Prod.fst ∧
    serializeToken v = NumToken.nullTok ∧
    List.IsInfix (quoteStr name ++ ":null").data (requestBody f).data := by
  subst hnan
  refine ⟨List.mem_map_of_mem Prod.fst hmem, rfl, ?_⟩
  have h := isInfix_stringifyBody (inputData f) (name, JSNum.nan) hmem
  have e : fieldStr (name, JSNum.nan) = quoteStr name ++ ":null" := by
    show quoteStr name ++ ":" ++ "null" = quoteStr name ++ ":null"
    rw [String.append_assoc]
    rfl
  unfold requestBody
  rw [← e]
  exact h

/-- Claim C2 witness: the corrected theorem instantiated at the form whose
failure-rate control reads `abc`. -/
theorem c2_nan_serialized_null_witness :
    "failure_rate_pct" ∈ (inputData nanForm).map Prod.fst ∧
    serializeToken JSNum.nan = NumToken.nullTok ∧
    List.IsInfix (quoteStr "failure_rate_pct" ++ ":null").data (requestBody nanForm).data :=
  c2_nan_serialized_null nanForm "failure_rate_pct" JSNum.nan (by decide) rfl

/-- Claim C3, counterexample to the stated display rule: a non-success
response whose parsed body has the error field present but equal to the
empty string displays the generic fallback, because `results.error ||`
treats the empty string as falsy; the display is not `Error: ` followed by
that (empty) string. -/
theorem c3_empty_error_counterexample :
    (runHandler initialUI (Outcome.httpError (some ""))).errorText
      = "Error: An unknown error occurred" ∧
    ¬ (runHandler initialUI (Outcome.httpError (some ""))).errorText = "Error: " := by
  refine ⟨by decide, by decide⟩

/-- Claim C3, corrected: on a non-success HTTP status whose parsed body
carries a non-empty `error` string, the displayed error text is `Error: `
followed by that string and the error region is visible; when the `error`
field is absent (and likewise when it is the empty string, which JS `||`
treats as falsy), the fallback `Error: An unknown error occurred` is
displayed. -/
theorem c3_error_display (st : UIState) (s : String) (hs : ¬ s = "") :
    ((runHandler st (Outcome.httpError (some s))).errorText = "Error: " ++ s ∧
     (runHandler st (Outcome.httpError (some s))).errorVisible = true) ∧
    (runHandler st (Outcome.httpError none)).errorText
      = "Error: An unknown error occurred" := by
  refine ⟨⟨?_, ?_⟩, ?_⟩ <;>
    simp [runHandler, clickHandler, setupEvents, tryCatchEvents, applyEvent, jsOr, hs]

/-- Claim C3 witness: the corrected theorem at the body
`{"error": "bad input"}`. -/
theorem c3_error_display_witness :
    ((runHandler initialUI (Outcome.httpError (some "bad input"))).errorText
        = "Error: " ++ "bad input" ∧
     (runHandler initialUI (Outcome.httpError (some "bad input"))).errorVisible = true) ∧
    (runHandler initialUI (Outcome.httpError none)).errorText
      = "Error: An unknown error occurred" :=
  c3_error_display initialUI "bad input" (by decide)

/-- Claim C4, confirmed: whatever the outcome of the submission —
success, non-success status, transport failure, or a parse error — the
handler trace hides the loading indicator exactly once, that hide is the
final, unconditional step of the trace, and after the handler settles the
loading indicator is not visible, from any starting page state. -/
theorem c4_loading_cleanup (st : UIState) (o : Outcome) :
    ((clickHandler o).countP isHideLoading = 1) ∧
    ((runHandler st o).loadingVisible = false) ∧
    ((clickHandler o).getLast? = some UIEvent.hideLoading) := by
  refine ⟨?_, ?_, ?_⟩
  · cases o <;>
      simp [clickHandler, setupEvents, tryCatchEvents, List.countP_append,
        List.countP_cons, isHideLoading]
  · unfold runHandler clickHandler
    rw [List.foldl_append]
    rfl
  · unfold clickHandler
    exact List.getLast?_concat _

/-- Claim C4 witness: the theorem at the initial page state and a
transport failure. -/
theorem c4_loading_cleanup_witness :
    ((clickHandler (Outcome.transportError "boom")).countP isHideLoading = 1) ∧
    ((runHandler initialUI (Outcome.transportError "boom")).loadingVisible = false) ∧
    ((clickHandler (Outcome.transportError "boom")).getLast? = some UIEvent.hideLoading) :=
  c4_loading_cleanup initialUI (Outcome.transportError "boom")

/-- Claim C5, confirmed: an entry of the metrics mapping whose value is
the empty string is appended as the bare line `\n<key>\n` — no separator,
no value — and consequently, for any key that is a reasonable label (no
newline inside, nonempty, not starting or ending in whitespace), the
rendered metrics output contains that key alone as one of its lines. -/
theorem c5_section_header_line (es : List (String × MetricValue)) (k : String)
    (hmem : (k, MetricValue.str "") ∈ es) (hnl : ¬ '\n' ∈ k.data)
    (hk : k.data ≠ []) (hhd : wsOpt k.data.head? = false)
    (hlast : wsOpt k.data.getLast? = false) :
    formatEntry k (MetricValue.str "") = "\n" ++ k ++ "\n" ∧
    k.data ∈ splitNL (renderMetricsText es).data := by
  refine ⟨rfl, ?_⟩
  unfold renderMetricsText jsTrim
  show k.data ∈ splitNL (trimChars (renderEntries es).data)
  exact mem_splitNL_trimChars k.data _ hk hhd hlast
    (key_line_renderEntries es k hmem hnl)

/-- Claim C5 witness: a two-entry metrics mapping with the section header
`Portfolio Summary`. -/
theorem c5_section_header_line_witness :
    formatEntry "Portfolio Summary" (MetricValue.str "")
      = "\n" ++ "Portfolio Summary" ++ "\n" ∧
    "Portfolio Summary".data ∈ splitNL (renderMetricsText
      [("Portfolio Summary", MetricValue.str ""),
       ("Mean IRR", MetricValue.num (mkRat 1234 10000))]).data :=
  c5_section_header_line
    [("Portfolio Summary", MetricValue.str ""),
     ("Mean IRR", MetricValue.num (mkRat 1234 10000))]
    "Portfolio Summary" (by decide) (by decide) (by decide) (by decide) (by decide)

/-- Claim C6, confirmed: a numeric metrics entry whose key contains `IRR`
or begins with `P(` is rendered as the padded key, the separator, the
value multiplied by 100 and formatted to two decimal places, and a `%`
suffix. -/
theorem c6_percentage_format (k : String) (q : ℚ)
    (h : strIncludes k "IRR" = true ∨ startsWithStr k "P(" = true) :
    formatEntry k (MetricValue.num q)
      = padEnd k 32 ++ ": " ++ toFixed2 (q * 100) ++ "%\n" := by
  have h' : (strIncludes k "IRR" || strIncludes k "P(") = true := by
    rcases h with h | h
    · simp [h]
    · simp [startsWith_imp_includes k "P(" h]
  simp [formatEntry, h', qMul_eq]

/-- Claim C6 witness: the key `Mean IRR` with value 0.1234 renders with
`12.34%`. -/
theorem c6_percentage_format_witness :
    formatEntry "Mean IRR" (MetricValue.num (mkRat 1234 10000))
      = padEnd "Mean IRR" 32 ++ ": " ++ toFixed2 ((mkRat 1234 10000) * 100) ++ "%\n" ∧
    strIncludes (formatEntry "Mean IRR" (MetricValue.num (mkRat 1234 10000))) "12.34%" = true :=
  ⟨c6_percentage_format "Mean IRR" (mkRat 1234 10000) (Or.inl (by decide)),
   by decide⟩

/-- Claim C7, counterexample as stated: the key `P(MOIC > 2x)` contains
`MOIC`, yet with value 0.5 the rendered line is the percentage
`50.00%`, not the multiple `0.50x`, because the `IRR`/`P(` branch comes
first in the if/else chain. -/
theorem c7_moic_precedence_counterexample :
    strIncludes "P(MOIC > 2x)" "MOIC" = true ∧
    ¬ (formatEntry "P(MOIC > 2x)" (MetricValue.num (mkRat 1 2))
        = padEnd "P(MOIC > 2x)" 32 ++ ": " ++ toFixed2 (mkRat 1 2) ++ "x\n") ∧
    formatEntry "P(MOIC > 2x)" (MetricValue.num (mkRat 1 2))
      = "P(MOIC > 2x)                    : 50.00%\n" := by
  refine ⟨by decide, by decide, by decide⟩

/-- Claim C7, corrected: a numeric metrics entry whose key contains `MOIC`
and is not captured by the earlier percentage branch (it contains neither
`IRR` nor `P(`) is rendered as the value formatted to two decimal places
with an `x` suffix. -/
theorem c7_moic_format (k : String) (q : ℚ) (hm : strIncludes k "MOIC" = true)
    (h1 : strIncludes k "IRR" = false) (h2 : strIncludes k "P(" = false) :
    formatEntry k (MetricValue.num q) = padEnd k 32 ++ ": " ++ toFixed2 q ++ "x\n" := by
  simp [formatEntry, hm, h1, h2]

/-- Claim C7 witness: the key `Mean MOIC` with value 2.5 renders as
`2.50x`. -/
theorem c7_moic_format_witness :
    formatEntry "Mean MOIC" (MetricValue.num (mkRat 5 2))
      = padEnd "Mean MOIC" 32 ++ ": " ++ toFixed2 (mkRat 5 2) ++ "x\n" ∧
    toFixed2 (mkRat 5 2) ++ "x" = "2.50x" :=
  ⟨c7_moic_format "Mean MOIC" (mkRat 5 2) (by decide) (by decide) (by decide),
   by decide⟩

/-- Claim C8, counterexample as stated: the key `P(Val > 0)` contains
`Val`, yet with value 1234567.8 the rendered line is a percentage, not the
currency amount `$1,234,568`, because the `IRR`/`P(` branch comes first in
the if/else chain. -/
theorem c8_currency_precedence_counterexample :
    strIncludes "P(Val > 0)" "Val" = true ∧
    ¬ (formatEntry "P(Val > 0)" (MetricValue.num (mkRat 12345678 10))
        = padEnd "P(Val > 0)" 32 ++ ": $" ++ intGrouped (jsRound (mkRat 12345678 10)) ++ "\n") ∧
    formatEntry "P(Val > 0)" (MetricValue.num (mkRat 12345678 10))
      = "P(Val > 0)                      : 123456780.00%\n" := by
  refine ⟨by decide, by decide, by decide⟩

/-- Claim C8, corrected: a numeric metrics entry whose key contains `Val`
or `Proceeds` and is captured by no earlier branch (it contains none of
`IRR`, `P(`, `MOIC`) is rendered as the value rounded to the nearest
integer, thousands-grouped, with a `$` prefix. -/
theorem c8_currency_format (k : String) (q : ℚ)
    (hv : strIncludes k "Val" = true ∨ strIncludes k "Proceeds" = true)
    (h1 : strIncludes k "IRR" = false) (h2 : strIncludes k "P(" = false)
    (h3 : strIncludes k "MOIC" = false) :
    formatEntry k (MetricValue.num q)
      = padEnd k 32 ++ ": $" ++ intGrouped (jsRound q) ++ "\n" := by
  have hv' : (strIncludes k "Val" || strIncludes k "Proceeds") = true := by
    rcases hv with h | h <;> simp [h]
  simp [formatEntry, h1, h2, h3, hv']

/-- Claim C8 witness: the key `Median Exit Val` with value 1234567.8
renders as `$1,234,568`. -/
theorem c8_currency_format_witness :
    formatEntry "Median Exit Val" (MetricValue.num (mkRat 12345678 10))
      = padEnd "Median Exit Val" 32 ++ ": $" ++ intGrouped (jsRound (mkRat 12345678 10)) ++ "\n" ∧
    "$" ++ intGrouped (jsRound (mkRat 12345678 10)) = "$1,234,568" :=
  ⟨c8_currency_format "Median Exit Val" (mkRat 12345678 10) (Or.inl (by decide))
     (by decide) (by decide) (by decide),
   by decide⟩

/-- Claim C9, confirmed: the sequence passed as the MOIC histogram trace
input is exactly the order-preserving subsequence of `plot_data_moic`
whose elements are strictly greater than 0.01; in particular
`[0.001, 0.02, 5, 10]` yields `[0.02, 5, 10]`. -/
theorem c9_moic_filter (data : List ℚ) :
    List.Sublist (moicTrace data).x data ∧
    (∀ x : ℚ, x ∈ (moicTrace data).x ↔ x ∈ data ∧ mkRat 1 100 < x) ∧
    (moicTrace [mkRat 1 1000, mkRat 1 50, 5, 10]).x = [mkRat 1 50, 5, 10] := by
  refine ⟨List.filter_sublist _, fun x => ?_, by decide⟩
  simp [moicTrace, List.mem_filter]

/-- Claim C9 witness: the theorem at the concrete sample data of the
claim. -/
theorem c9_moic_filter_witness :
    List.Sublist (moicTrace [mkRat 1 1000, mkRat 1 50, 5, 10]).x
      [mkRat 1 1000, mkRat 1 50, 5, 10] ∧
    (∀ x : ℚ, x ∈ (moicTrace [mkRat 1 1000, mkRat 1 50, 5, 10]).x ↔
      x ∈ [mkRat 1 1000, mkRat 1 50, 5, 10] ∧ mkRat 1 100 < x) ∧
    (moicTrace [mkRat 1 1000, mkRat 1 50, 5, 10]).x = [mkRat 1 50, 5, 10] :=
  c9_moic_filter [mkRat 1 1000, mkRat 1 50, 5, 10]

/-- Claim C10, confirmed: for every metrics entry exactly one formatting
branch applies, selected by the fixed precedence empty-string value, then
any other string value, then key containing `IRR` or `P(`, then key
containing `MOIC`, then key containing `Val` or `Proceeds`, then the
two-decimal default; each conjunct characterises the output of the branch
that fires first. -/
theorem c10_branch_precedence (k : String) (v : MetricValue) :
    (v = MetricValue.str "" → formatEntry k v = "\n" ++ k ++ "\n") ∧
    (∀ s, v = MetricValue.str s → ¬ s = "" →
      formatEntry k v = padEnd k 32 ++ ": " ++ s ++ "\n") ∧
    (∀ q, v = MetricValue.num q →
      (strIncludes k "IRR" = true ∨ strIncludes k "P(" = true) →
      formatEntry k v = padEnd k 32 ++ ": " ++ toFixed2 (q * 100) ++ "%\n") ∧
    (∀ q, v = MetricValue.num q →
      strIncludes k "IRR" = false → strIncludes k "P(" = false →
      strIncludes k "MOIC" = true →
      formatEntry k v = padEnd k 32 ++ ": " ++ toFixed2 q ++ "x\n") ∧
    (∀ q, v = MetricValue.num q →
      strIncludes k "IRR" = false → strIncludes k "P(" = false →
      strIncludes k "MOIC" = false →
      (strIncludes k "Val" = true ∨ strIncludes k "Proceeds" = true) →
      formatEntry k v = padEnd k 32 ++ ": $" ++ intGrouped (jsRound q) ++ "\n") ∧
    (∀ q, v = MetricValue.num q →
      strIncludes k "IRR" = false → strIncludes k "P(" = false →
      strIncludes k "MOIC" = false → strIncludes k "Val" = false →
      strIncludes k "Proceeds" = false →
      formatEntry k v = padEnd k 32 ++ ": " ++ toFixed2 q ++ "\n") := by
  refine ⟨?_, ?_, ?_, ?_, ?_, ?_⟩
  · rintro rfl; rfl
  · rintro s rfl hs; simp [formatEntry, hs]
  · rintro q rfl h
    have h' : (strIncludes k "IRR" || strIncludes k "P(") = true := by
      rcases h with h | h <;> simp [h]
    simp [formatEntry, h', qMul_eq]
  · rintro q rfl h1 h2 hm; simp [formatEntry, h1, h2, hm]
  · rintro q rfl h1 h2 h3 hv
    have hv' : (strIncludes k "Val" || strIncludes k "Proceeds") = true := by
      rcases hv with h | h <;> simp [h]
    simp [formatEntry, h1, h2, h3, hv']
  · rintro q rfl h1 h2 h3 h4 h5; simp [formatEntry, h1, h2, h3, h4, h5]

/-- Claim C10 witness: a key matching both the `MOIC` and the `Val`
conventions is formatted by the earlier `MOIC` branch alone. -/
theorem c10_branch_precedence_witness :
    strIncludes "MOIC Val" "MOIC" = true ∧
    strIncludes "MOIC Val" "Val" = true ∧
    formatEntry "MOIC Val" (MetricValue.num (mkRat 3 2))
      = padEnd "MOIC Val" 32 ++ ": " ++ toFixed2 (mkRat 3 2) ++ "x\n" :=
  ⟨by decide, by decide,
   (c10_branch_precedence "MOIC Val" (MetricValue.num (mkRat 3 2))).2.2.2.1
     (mkRat 3 2) rfl (by decide) (by decide) (by decide)⟩
